import Mathlib

/-!
Shallow embedding of `src/heic2jpg.py` (bulk HEIC/video converter).

Pure path computations (`pathlib.Path.stem` / `.suffix`, path joining) are
modelled over `String`.  Side-effecting collaborators (PIL decode/encode,
the ffmpeg subprocess, the wall clock) are modelled as explicit environment
parameters: each worker receives an environment value saying whether the
underlying external operation succeeds, raises, or (for ffmpeg) exits with a
given code.  `run_conversion` returns, besides the Python return triple, an
effect trace: whether the output directory was created, which tasks were
submitted, and the sequence of progress-callback invocations.
-/

namespace Heic2Jpg

/-- Characters of the final path component: `pathlib` name semantics,
everything after the last slash. -/
def baseNameChars (cs : List Char) : List Char :=
  cs.foldl (fun acc c => if c = '/' then [] else acc ++ [c]) []

/-- Index of the last dot in a list of characters, if any. -/
def rfindDot : List Char → Option Nat
  | [] => none
  | c :: rest =>
    match rfindDot rest with
    | some i => some (i + 1)
    | none => if c = '.' then some 0 else none

/-- `pathlib` stem of a file name: the name with its extension removed.
The extension starts at the last dot, provided that dot is neither the
first nor the last character of the name (CPython condition
`0 < i < len(name) - 1`). -/
def nameStemChars (name : List Char) : List Char :=
  match rfindDot name with
  | some i => if 0 < i ∧ i + 1 < name.length then name.take i else name
  | none => name

/-- `pathlib` suffix of a file name: the extension including the dot, or
empty under the same CPython condition as `nameStemChars`. -/
def nameSuffixChars (name : List Char) : List Char :=
  match rfindDot name with
  | some i => if 0 < i ∧ i + 1 < name.length then name.drop i else []
  | none => []

/-- `Path(p).name`: the final component of the path. -/
def baseName (p : String) : String :=
  String.mk (baseNameChars p.data)

/-- `Path(p).stem`. -/
def pathStem (p : String) : String :=
  String.mk (nameStemChars (baseNameChars p.data))

/-- `Path(p).suffix`. -/
def pathSuffix (p : String) : String :=
  String.mk (nameSuffixChars (baseNameChars p.data))

/-- `str(Path(dir) / file)` for a relative `file` name. -/
def joinPath (dir file : String) : String :=
  dir ++ "/" ++ file

/-- `img_extensions = {'.heic', '.HEIC'}` (heic2jpg.py line 82). -/
def img_extensions : List String := [".heic", ".HEIC"]

/-- `vid_extensions` (heic2jpg.py line 83). -/
def vid_extensions : List String :=
  [".mov", ".MOV", ".qt", ".QT", ".mp4", ".MP4", ".m4v", ".M4V"]

/-- A classified conversion task: `('img', (src, out, quality))` or
`('vid', (src, out, ffmpeg_exe))` in the Python source. -/
inductive Task
  | img (src outDir : String) (quality : Nat)
  | vid (src outDir : String) (ffmpeg : String)
deriving DecidableEq

/-- Source path of a task. -/
def Task.src : Task → String
  | .img s _ _ => s
  | .vid s _ _ => s

/-- A directory entry as seen by `input_path.iterdir()`: its path and
whether it is a regular file. -/
structure Entry where
  path : String
  isFile : Bool
deriving DecidableEq

/-- Classification of one directory entry (heic2jpg.py lines 92-103):
non-files are skipped; an image extension yields an image task; a video
extension yields a video task only when ffmpeg is available, and is
silently dropped otherwise; everything else is ignored. -/
def classifyEntry (output_path : String) (quality : Nat)
    (ffmpeg_exe : Option String) (e : Entry) : Option Task :=
  if !e.isFile then none
  else if pathSuffix e.path ∈ img_extensions then
    some (.img e.path output_path quality)
  else if pathSuffix e.path ∈ vid_extensions then
    match ffmpeg_exe with
    | some exe => some (.vid e.path output_path exe)
    | none => none
  else none

/-- `files_to_process` built by the scan loop of `run_conversion`. -/
def files_to_process (entries : List Entry) (output_path : String)
    (quality : Nat) (ffmpeg_exe : Option String) : List Task :=
  entries.filterMap (classifyEntry output_path quality ffmpeg_exe)

/-- Environment of one `convert_image` call: whether the PIL
`Image.open`/`save` pair inside the `try` block succeeds or raises, and in
the latter case the exception text `str(e)`. -/
inductive ImgEnv
  | ok
  | raises (cause : String)
deriving DecidableEq

/-- Environment of one `convert_video` call: the subprocess either runs and
exits with a code, or the `try` block raises with exception text `str(e)`. -/
inductive VidEnv
  | exits (code : Int)
  | raises (cause : String)
deriving DecidableEq

/-- Result of `convert_image`: the output path it computed and the returned
`(success, message)` pair. -/
structure ImgResult where
  outputPath : String
  outcome : Bool × String
deriving DecidableEq

/-- Result of `convert_video`: the output path (none when the function
returned before computing it), whether the subprocess was invoked, and the
returned `(success, message)` pair. -/
structure VidResult where
  outputPath : Option String
  invoked : Bool
  outcome : Bool × String
deriving DecidableEq

/-- `convert_image` (heic2jpg.py lines 25-40). -/
def convert_image (file_path output_folder : String) (quality : Nat)
    (env : ImgEnv) : ImgResult :=
  let output_filename := pathStem file_path ++ ".jpg"
  let output_path := joinPath output_folder output_filename
  match env with
  | .ok =>
      { outputPath := output_path, outcome := (true, file_path) }
  | .raises e =>
      { outputPath := output_path,
        outcome := (false, file_path ++ ": " ++ e) }

/-- `convert_video` (heic2jpg.py lines 42-78).  A missing ffmpeg path
returns before computing the output path or invoking the subprocess;
otherwise the subprocess runs: exit code 0 is success, a nonzero exit code
or an exception is a failure message built from the source path. -/
def convert_video (file_path output_folder : String)
    (ffmpeg_path : Option String) (env : VidEnv) : VidResult :=
  match ffmpeg_path with
  | none =>
      { outputPath := none, invoked := false,
        outcome := (false, file_path ++ ": FFmpeg not found.") }
  | some _ =>
    let output_filename := pathStem file_path ++ ".mp4"
    let output_path := joinPath output_folder output_filename
    match env with
    | .exits code =>
        if code = 0 then
          { outputPath := some output_path, invoked := true,
            outcome := (true, file_path) }
        else
          { outputPath := some output_path, invoked := true,
            outcome := (false,
              file_path ++ ": FFmpeg exited with code " ++ toString code) }
    | .raises e =>
        { outputPath := some output_path, invoked := true,
          outcome := (false, file_path ++ ": " ++ e) }

/-- Per-run worker environments, keyed by source path: what the external
decode/encode or subprocess does for each file. -/
structure Oracle where
  imgEnv : String → ImgEnv
  vidEnv : String → VidEnv

/-- Outcome `(success, message)` of executing one submitted task, as the
dispatch loop of `run_conversion` does (lines 117-121). -/
def runOutcome (o : Oracle) : Task → Bool × String
  | .img s out q => (convert_image s out q (o.imgEnv s)).outcome
  | .vid s out f => (convert_video s out (some f) (o.vidEnv s)).outcome

/-- `sum(1 for success, _ in results if success)` (line 130). -/
def successCountOf (results : List (Bool × String)) : Nat :=
  (results.filter (fun r => r.1)).length

/-- `[msg for success, msg in results if not success]` (line 131). -/
def failuresOf (results : List (Bool × String)) : List String :=
  results.filterMap (fun r => if r.1 then none else some r.2)

/-- The third component of the Python return triple of `run_conversion`:
a float duration on a normal run, a string message on the "no eligible
files" path. -/
inductive Duration
  | secs (t : ℚ)
  | msg (s : String)
deriving DecidableEq

/-- `isinstance(duration, str)`, the runtime type test the GUI performs on
the third component (line 211). -/
def Duration.isStr : Duration → Bool
  | .secs _ => false
  | .msg _ => true

/-- The Python return triple of `run_conversion`. -/
structure RunReturn where
  successCount : Nat
  errors : List String
  duration : Duration
deriving DecidableEq

/-- `run_conversion` return value together with its effect trace. -/
structure RunTrace where
  ret : RunReturn
  mkdirCalled : Bool
  submitted : List Task
  progressCalls : List (Nat × Nat)
deriving DecidableEq

/-- `run_conversion` (heic2jpg.py lines 80-133).  Classifies entries, and
with zero tasks returns `(0, [], "No convertible media files found.")`
before creating the output directory or submitting anything; otherwise it
creates the directory, submits every task, collects each future result by
iterating the futures list in submission order, calls the progress
callback with `(i + 1, count)` after the i-th result, and returns the
success count, failure messages and elapsed duration. -/
def run_conversion (entries : List Entry) (output_path : String)
    (quality : Nat) (ffmpeg_exe : Option String) (oracle : Oracle)
    (elapsed : ℚ) : RunTrace :=
  let fs := files_to_process entries output_path quality ffmpeg_exe
  let count := fs.length
  if count = 0 then
    { ret := { successCount := 0, errors := [],
               duration := .msg "No convertible media files found." },
      mkdirCalled := false, submitted := [], progressCalls := [] }
  else
    let results := fs.map (runOutcome oracle)
    { ret := { successCount := successCountOf results,
               errors := failuresOf results,
               duration := .secs elapsed },
      mkdirCalled := true, submitted := fs,
      progressCalls := (List.range count).map (fun i => (i + 1, count)) }

/-- The result of the CLI `main` path (heic2jpg.py lines 236-321): a
distinct early error for a missing input directory, a distinct message for
no eligible files, or a completed run. -/
inductive CliResult
  | inputMissing (message : String)
  | noFiles (message : String)
  | completed (successCount : Nat) (errors : List String)
deriving DecidableEq

/-- CLI `main` result together with its effect trace. -/
structure CliTrace where
  result : CliResult
  scanned : Bool
  mkdirCalled : Bool
  submitted : List Task
deriving DecidableEq

/-- The CLI path of `main` (heic2jpg.py lines 245-321): a nonexistent input
directory is reported first, before any scan or directory creation; then
the output directory defaults to `<input>/converted`; then classification
runs, an empty task list is reported as "No files found", and otherwise the
directory is created and all tasks run. -/
def cli_main (input_dir : String) (inputExists : Bool)
    (entries : List Entry) (output_dir : Option String) (quality : Nat)
    (ffmpeg_exe : Option String) (oracle : Oracle) : CliTrace :=
  if !inputExists then
    { result := .inputMissing
        ("Error: Input directory " ++ "\x27" ++ input_dir ++ "\x27"
          ++ " does not exist."),
      scanned := false, mkdirCalled := false, submitted := [] }
  else
    let output_path :=
      match output_dir with
      | some o => o
      | none => joinPath input_dir "converted"
    let fs := files_to_process entries output_path quality ffmpeg_exe
    if fs.isEmpty then
      { result := .noFiles ("No files found in " ++ input_dir),
        scanned := true, mkdirCalled := false, submitted := [] }
    else
      let results := fs.map (runOutcome oracle)
      { result := .completed (successCountOf results) (failuresOf results),
        scanned := true, mkdirCalled := true, submitted := fs }

/-- Modelled from the spec wording for the aggregation order question: the
sequence of results rearranged into a given completion (arrival) order,
`order` listing submission indices in the order the workers finished. -/
def arrivalOrderResults (results : List (Bool × String))
    (order : List Nat) : List (Bool × String) :=
  order.filterMap (fun i => results.get? i)

/-- Source path announced by a failure message: the characters before the
first colon (failure messages have the shape `path ++ ": " ++ cause`). -/
def msgSource (m : String) : String :=
  String.mk (m.data.takeWhile (fun c => c ≠ ':'))

/-- The submitted tasks whose outcome is a failure. -/
def failingTasks (o : Oracle) (l : List Task) : List Task :=
  l.filter (fun t => !(runOutcome o t).1)

/-- `failuresOf` keeps exactly the messages of the failing results, in
order. -/
theorem failuresOf_eq_filter_map (results : List (Bool × String)) :
    failuresOf results = (results.filter (fun r => !r.1)).map (fun r => r.2) := by
  induction results with
  | nil => rfl
  | cons r rs ih =>
    obtain ⟨b, m⟩ := r
    cases b <;> simp [failuresOf, List.filter_cons] at ih ⊢ <;> simpa using ih

/-- Success count plus failure count equals the number of results. -/
theorem successCount_add_failures (results : List (Bool × String)) :
    successCountOf results + (failuresOf results).length = results.length := by
  induction results with
  | nil => rfl
  | cons r rs ih =>
    obtain ⟨b, m⟩ := r
    cases b <;>
      simp only [successCountOf, failuresOf, List.filter_cons, List.filterMap_cons] at ih ⊢ <;>
      simp at * <;> omega

/-- Splitting the literal of the nonzero-exit failure message at the colon. -/
theorem exitmsg_split (f : String) (code : Int) :
    f ++ ": FFmpeg exited with code " ++ toString code
      = f ++ ": " ++ ("FFmpeg exited with code " ++ toString code) := by
  have h : (": FFmpeg exited with code " : String)
      = ": " ++ "FFmpeg exited with code " := by decide
  rw [h]
  simp only [← String.append_assoc]

/-- Splitting the literal of the tool-absent failure message at the colon. -/
theorem notfound_split (f : String) :
    f ++ ": FFmpeg not found." = f ++ ": " ++ "FFmpeg not found." := by
  have h : (": FFmpeg not found." : String) = ": " ++ "FFmpeg not found." := by
    decide
  rw [h, ← String.append_assoc]

/-- The tool-absent message differs from every exit-code message for the
same source path. -/
theorem notfound_ne_exitmsg (f : String) (code : Int) :
    f ++ ": FFmpeg not found." ≠ f ++ ": FFmpeg exited with code " ++ toString code := by
  intro h
  have hd := congrArg String.data h
  simp only [String.data_append, List.append_assoc] at hd
  have h2 := List.append_cancel_left hd
  have hlen := congrArg List.length h2
  have hA : (": FFmpeg not found." : String).data.length = 19 := by decide
  have hB : (": FFmpeg exited with code " : String).data.length = 26 := by decide
  simp only [List.length_append, hA, hB] at hlen
  omega

/-- A failing worker outcome's message is the source path, a colon and a
cause. -/
theorem runOutcome_fail_msg (o : Oracle) (t : Task)
    (h : (runOutcome o t).1 = false) :
    ∃ c, (runOutcome o t).2 = Task.src t ++ ": " ++ c := by
  cases t with
  | img s out q =>
    cases hi : o.imgEnv s with
    | ok => simp [runOutcome, convert_image, hi] at h
    | raises e => exact ⟨e, by simp [runOutcome, convert_image, hi, Task.src]⟩
  | vid s out f =>
    cases hv : o.vidEnv s with
    | exits code =>
      by_cases hc : code = 0
      · subst hc
        simp [runOutcome, convert_video, hv] at h
      · exact ⟨"FFmpeg exited with code " ++ toString code,
          by simp [runOutcome, convert_video, hv, hc, Task.src, exitmsg_split]⟩
    | raises e => exact ⟨e, by simp [runOutcome, convert_video, hv, Task.src]⟩

/-- C2: for every conversion task, `convert_image` and `convert_video`
return an outcome value (they are total functions of their environment, so
no exception escapes), and every failure path produces a failure outcome
whose message is the source path followed by a colon and a cause string. -/
theorem heic2jpg_C2_transcoders_total (file_path output_folder : String)
    (quality : Nat) (ienv : ImgEnv) (ffmpeg_path : Option String)
    (venv : VidEnv) :
    ((convert_image file_path output_folder quality ienv).outcome
        = (true, file_path)
      ∨ ∃ cause, (convert_image file_path output_folder quality ienv).outcome
          = (false, file_path ++ ": " ++ cause))
    ∧ ((convert_video file_path output_folder ffmpeg_path venv).outcome
        = (true, file_path)
      ∨ ∃ cause, (convert_video file_path output_folder ffmpeg_path venv).outcome
          = (false, file_path ++ ": " ++ cause)) := by
  constructor
  · cases ienv with
    | ok => exact Or.inl rfl
    | raises e => exact Or.inr ⟨e, rfl⟩
  · cases ffmpeg_path with
    | none =>
      exact Or.inr ⟨"FFmpeg not found.", by simp [convert_video, notfound_split]⟩
    | some p =>
      cases venv with
      | exits code =>
        by_cases h : code = 0
        · subst h
          exact Or.inl (by simp [convert_video])
        · exact Or.inr ⟨"FFmpeg exited with code " ++ toString code,
            by simp [convert_video, h, exitmsg_split]⟩
      | raises e => exact Or.inr ⟨e, by simp [convert_video]⟩

/-- C8: `convert_video` turns a nonzero subprocess exit into a failure
outcome carrying the exit code, and a missing tool path into a distinct
"tool not found" failure outcome produced before any subprocess
invocation. -/
theorem heic2jpg_C8_video_failures (file_path output_folder : String)
    (venv : VidEnv) :
    (convert_video file_path output_folder none venv
      = { outputPath := none, invoked := false,
          outcome := (false, file_path ++ ": FFmpeg not found.") })
    ∧ (∀ exe : String, ∀ code : Int, code ≠ 0 →
        (convert_video file_path output_folder (some exe) (.exits code)).outcome
            = (false, file_path ++ ": FFmpeg exited with code " ++ toString code)
          ∧ (convert_video file_path output_folder (some exe) (.exits code)).invoked
              = true
          ∧ (convert_video file_path output_folder none venv).outcome.2
              ≠ (convert_video file_path output_folder (some exe) (.exits code)).outcome.2) := by
  refine ⟨rfl, ?_⟩
  intro exe code hc
  refine ⟨by simp [convert_video, hc], by simp [convert_video, hc], ?_⟩
  simp only [convert_video, hc, if_neg hc]
  exact notfound_ne_exitmsg file_path code

/-- Witness for C8 at a concrete video task and exit code. -/
theorem heic2jpg_C8_video_failures_witness :
    (2 : Int) ≠ 0
    ∧ (convert_video "d/clip.mov" "out" (some "ff") (.exits 2)).outcome
        = (false, "d/clip.mov: FFmpeg exited with code 2") := by
  refine ⟨by decide, ?_⟩
  have h := (heic2jpg_C8_video_failures "d/clip.mov" "out" (.exits 2)).2 "ff" 2
    (by decide)
  exact h.1.trans (by decide)

/-- A video extension is never an image extension. -/
theorem vid_not_img {s : String} (h : s ∈ vid_extensions) :
    s ∉ img_extensions := by
  simp only [vid_extensions, List.mem_cons, List.not_mem_nil, or_false] at h
  rcases h with rfl | rfl | rfl | rfl | rfl | rfl | rfl | rfl <;> decide

/-- C5: an entry yields an image task iff it is a regular file with an
extension in the image set; it yields a video task iff it is a regular
file with an extension in the video set and ffmpeg is available; a video
file with no tool is dropped silently; every other entry is ignored. -/
theorem heic2jpg_C5_classification (output_path : String) (quality : Nat)
    (ffmpeg_exe : Option String) (e : Entry) :
    (classifyEntry output_path quality ffmpeg_exe e
        = some (.img e.path output_path quality)
      ↔ e.isFile = true ∧ pathSuffix e.path ∈ img_extensions)
    ∧ (∀ exe : String, ffmpeg_exe = some exe →
        (classifyEntry output_path quality ffmpeg_exe e
            = some (.vid e.path output_path exe)
          ↔ e.isFile = true ∧ pathSuffix e.path ∈ vid_extensions))
    ∧ (ffmpeg_exe = none → e.isFile = true →
        pathSuffix e.path ∈ vid_extensions →
        classifyEntry output_path quality ffmpeg_exe e = none)
    ∧ (¬(e.isFile = true
          ∧ (pathSuffix e.path ∈ img_extensions
              ∨ pathSuffix e.path ∈ vid_extensions)) →
        classifyEntry output_path quality ffmpeg_exe e = none) := by
  obtain ⟨p, b⟩ := e
  cases b with
  | false => simp [classifyEntry]
  | true =>
    by_cases hi : pathSuffix p ∈ img_extensions
    · have hv : pathSuffix p ∉ vid_extensions := fun hv => vid_not_img hv hi
      simp [classifyEntry, hi, hv]
    · by_cases hv : pathSuffix p ∈ vid_extensions
      · cases ffmpeg_exe with
        | none => simp [classifyEntry, hi, hv]
        | some exe => simp [classifyEntry, hi, hv]
      · simp [classifyEntry, hi, hv]

/-- Witness for C5 on concrete entries: a `.heic` file is an image task, a
`.mov` file with ffmpeg is a video task, a `.mov` file without ffmpeg is
dropped, and a `.txt` file is ignored. -/
theorem heic2jpg_C5_classification_witness :
    ((some "ff" : Option String) = some "ff")
    ∧ (classifyEntry "out" 95 (some "ff") ⟨"d/a.heic", true⟩
        = some (.img "d/a.heic" "out" 95))
    ∧ (classifyEntry "out" 95 (some "ff") ⟨"d/c.mov", true⟩
        = some (.vid "d/c.mov" "out" "ff"))
    ∧ (classifyEntry "out" 95 none ⟨"d/c.mov", true⟩ = none)
    ∧ (classifyEntry "out" 95 (some "ff") ⟨"d/x.txt", true⟩ = none) := by
  refine ⟨rfl, ?_, ?_, ?_, ?_⟩
  · exact (heic2jpg_C5_classification "out" 95 (some "ff")
      ⟨"d/a.heic", true⟩).1.mpr (by decide)
  · exact ((heic2jpg_C5_classification "out" 95 (some "ff")
      ⟨"d/c.mov", true⟩).2.1 "ff" rfl).mpr (by decide)
  · exact (heic2jpg_C5_classification "out" 95 none
      ⟨"d/c.mov", true⟩).2.2.1 rfl rfl (by decide)
  · exact (heic2jpg_C5_classification "out" 95 (some "ff")
      ⟨"d/x.txt", true⟩).2.2.2 (by decide)

/-- C6: when classification yields no tasks, `run_conversion` returns the
"no eligible files" result without creating the output directory,
submitting any task, or reporting progress. -/
theorem heic2jpg_C6_no_eligible (entries : List Entry) (output_path : String)
    (quality : Nat) (ffmpeg_exe : Option String) (oracle : Oracle)
    (elapsed : ℚ)
    (h : files_to_process entries output_path quality ffmpeg_exe = []) :
    run_conversion entries output_path quality ffmpeg_exe oracle elapsed
      = { ret := { successCount := 0, errors := [],
                   duration := .msg "No convertible media files found." },
          mkdirCalled := false, submitted := [], progressCalls := [] } := by
  simp [run_conversion, h]

/-- Witness for C6: a directory holding only a video file, with ffmpeg
unavailable, yields the terminal result with no directory creation and no
submissions. -/
theorem heic2jpg_C6_no_eligible_witness :
    files_to_process [⟨"d/clip.mov", true⟩] "out" 95 none = []
    ∧ run_conversion [⟨"d/clip.mov", true⟩] "out" 95 none
        ⟨fun _ => .ok, fun _ => .exits 0⟩ 0
      = { ret := { successCount := 0, errors := [],
                   duration := .msg "No convertible media files found." },
          mkdirCalled := false, submitted := [], progressCalls := [] } :=
  ⟨by decide,
    heic2jpg_C6_no_eligible [⟨"d/clip.mov", true⟩] "out" 95 none
      ⟨fun _ => .ok, fun _ => .exits 0⟩ 0 (by decide)⟩

/-- C7: on a nonexistent input directory the CLI entry point reports the
"input directory missing" error before scanning, creating directories or
submitting tasks, and this result is distinct from the "no files found"
result. -/
theorem heic2jpg_C7_input_missing (input_dir : String) (entries : List Entry)
    (output_dir : Option String) (quality : Nat) (ffmpeg_exe : Option String)
    (oracle : Oracle) :
    (cli_main input_dir false entries output_dir quality ffmpeg_exe oracle
      = { result := .inputMissing
            ("Error: Input directory " ++ "\x27" ++ input_dir ++ "\x27"
              ++ " does not exist."),
          scanned := false, mkdirCalled := false, submitted := [] })
    ∧ ∀ s : String,
        (cli_main input_dir false entries output_dir quality ffmpeg_exe
            oracle).result ≠ .noFiles s := by
  refine ⟨rfl, ?_⟩
  intro s h
  simp [cli_main] at h

/-- C9: the image output path is the destination joined with the source
stem plus ".jpg", the video output path is the stem plus ".mp4", and the
stem depends only on the source base name, so outputs are flat in the
destination directory regardless of source depth. -/
theorem heic2jpg_C9_output_paths (file_path output_folder : String)
    (quality : Nat) (ienv : ImgEnv) (exe : String) (venv : VidEnv) :
    (convert_image file_path output_folder quality ienv).outputPath
        = joinPath output_folder (pathStem file_path ++ ".jpg")
    ∧ (convert_video file_path output_folder (some exe) venv).outputPath
        = some (joinPath output_folder (pathStem file_path ++ ".mp4"))
    ∧ pathStem file_path = String.mk (nameStemChars (baseName file_path).data)
    ∧ (∀ other : String, baseName other = baseName file_path →
        pathStem other = pathStem file_path) := by
  refine ⟨?_, ?_, rfl, ?_⟩
  · cases ienv <;> rfl
  · cases venv with
    | exits code => by_cases h : code = 0 <;> simp [convert_video, h]
    | raises e => rfl
  · intro other hother
    have hd : baseNameChars other.data = baseNameChars file_path.data :=
      congrArg String.data hother
    show String.mk (nameStemChars (baseNameChars other.data))
      = String.mk (nameStemChars (baseNameChars file_path.data))
    rw [hd]

/-- Witness for C9: concrete image and video tasks land flat in the output
directory, and two sources of different depth with the same base name get
the same stem. -/
theorem heic2jpg_C9_output_paths_witness :
    (convert_image "a/b/pic.heic" "out" 95 .ok).outputPath = "out/pic.jpg"
    ∧ (convert_video "a/b/clip.mov" "out" (some "ff")
        (.exits 0)).outputPath = some "out/clip.mp4"
    ∧ pathStem "x/pic.heic" = pathStem "a/b/pic.heic" := by
  have h := heic2jpg_C9_output_paths "a/b/pic.heic" "out" 95 .ok "ff" (.exits 0)
  have h2 := heic2jpg_C9_output_paths "a/b/clip.mov" "out" 95 .ok "ff" (.exits 0)
  refine ⟨h.1.trans (by decide), h2.2.1.trans (by decide), ?_⟩
  exact (heic2jpg_C9_output_paths "a/b/pic.heic" "out" 95 .ok "ff"
    (.exits 0)).2.2.2 "x/pic.heic" (by decide)

/-- C3: on a run with at least one classified task, the progress callback
is invoked once per task, the completed count increases by 1 each call
from 1 to the task count, the last call reports the task count, and the
total argument is the task count on every call. -/
theorem heic2jpg_C3_progress (entries : List Entry) (output_path : String)
    (quality : Nat) (ffmpeg_exe : Option String) (oracle : Oracle)
    (elapsed : ℚ)
    (h : files_to_process entries output_path quality ffmpeg_exe ≠ []) :
    (run_conversion entries output_path quality ffmpeg_exe oracle
          elapsed).progressCalls.length
        = (files_to_process entries output_path quality ffmpeg_exe).length
    ∧ (∀ k,
        k < (files_to_process entries output_path quality ffmpeg_exe).length →
        (run_conversion entries output_path quality ffmpeg_exe oracle
            elapsed).progressCalls.get? k
          = some (k + 1,
              (files_to_process entries output_path quality ffmpeg_exe).length))
    ∧ (run_conversion entries output_path quality ffmpeg_exe oracle
          elapsed).progressCalls.get?
        ((files_to_process entries output_path quality ffmpeg_exe).length - 1)
      = some ((files_to_process entries output_path quality ffmpeg_exe).length,
          (files_to_process entries output_path quality ffmpeg_exe).length)
    ∧ ∀ pc ∈ (run_conversion entries output_path quality ffmpeg_exe oracle
        elapsed).progressCalls,
        pc.2 = (files_to_process entries output_path quality ffmpeg_exe).length := by
  have hlen :
      (files_to_process entries output_path quality ffmpeg_exe).length ≠ 0 := by
    simpa [List.length_eq_zero] using h
  have hpc : (run_conversion entries output_path quality ffmpeg_exe oracle
      elapsed).progressCalls
      = (List.range
          (files_to_process entries output_path quality ffmpeg_exe).length).map
          (fun i => (i + 1,
            (files_to_process entries output_path quality ffmpeg_exe).length)) := by
    simp [run_conversion, hlen]
  refine ⟨?_, ?_, ?_, ?_⟩
  · simp [hpc]
  · intro k hk
    rw [hpc, List.get?_map, List.get?_range hk]
    rfl
  · have hk :
        (files_to_process entries output_path quality ffmpeg_exe).length - 1
          < (files_to_process entries output_path quality ffmpeg_exe).length := by
      omega
    rw [hpc, List.get?_map, List.get?_range hk]
    have he :
        (files_to_process entries output_path quality ffmpeg_exe).length - 1 + 1
          = (files_to_process entries output_path quality ffmpeg_exe).length := by
      omega
    simp [he]
  · intro pc hmem
    rw [hpc] at hmem
    simp only [List.mem_map, List.mem_range] at hmem
    obtain ⟨i, _, rfl⟩ := hmem
    rfl

/-- Witness for C3 on a two-image run. -/
theorem heic2jpg_C3_progress_witness :
    files_to_process [⟨"d/a.heic", true⟩, ⟨"d/b.HEIC", true⟩] "out" 95 none ≠ []
    ∧ (run_conversion [⟨"d/a.heic", true⟩, ⟨"d/b.HEIC", true⟩] "out" 95 none
        ⟨fun _ => .ok, fun _ => .exits 0⟩ 0).progressCalls.length = 2 := by
  refine ⟨by decide, ?_⟩
  exact (heic2jpg_C3_progress [⟨"d/a.heic", true⟩, ⟨"d/b.HEIC", true⟩] "out"
    95 none ⟨fun _ => .ok, fun _ => .exits 0⟩ 0 (by decide)).1.trans (by decide)

/-- C10: the returned triple's third component is a string exactly on the
"no eligible files" path, where the whole return equals
`(0, [], "No convertible media files found.")`; on every normal run the
third component is the numeric elapsed duration, so the GUI's
`isinstance(duration, str)` test distinguishes the two. -/
theorem heic2jpg_C10_duration_type (entries : List Entry)
    (output_path : String) (quality : Nat) (ffmpeg_exe : Option String)
    (oracle : Oracle) (elapsed : ℚ) :
    ((run_conversion entries output_path quality ffmpeg_exe oracle
        elapsed).ret.duration.isStr = true
      ↔ files_to_process entries output_path quality ffmpeg_exe = [])
    ∧ (files_to_process entries output_path quality ffmpeg_exe = [] →
        (run_conversion entries output_path quality ffmpeg_exe oracle
            elapsed).ret
          = { successCount := 0, errors := [],
              duration := .msg "No convertible media files found." })
    ∧ (files_to_process entries output_path quality ffmpeg_exe ≠ [] →
        (run_conversion entries output_path quality ffmpeg_exe oracle
            elapsed).ret.duration = .secs elapsed) := by
  by_cases hfs : files_to_process entries output_path quality ffmpeg_exe = []
  · simp [run_conversion, hfs, Duration.isStr]
  · have hlen :
        (files_to_process entries output_path quality ffmpeg_exe).length ≠ 0 := by
      simpa [List.length_eq_zero] using hfs
    simp [run_conversion, hfs, hlen, Duration.isStr]

/-- Witness for C10: the empty directory gets the exact terminal triple
with a string third component, and a one-image run carries the numeric
duration. -/
theorem heic2jpg_C10_duration_type_witness :
    files_to_process [] "out" 95 none = []
    ∧ (run_conversion [] "out" 95 none
        ⟨fun _ => .ok, fun _ => .exits 0⟩ 0).ret
      = { successCount := 0, errors := [],
          duration := .msg "No convertible media files found." }
    ∧ (run_conversion [⟨"d/a.heic", true⟩] "out" 95 none
        ⟨fun _ => .ok, fun _ => .exits 0⟩ 3).ret.duration = .secs 3 := by
  refine ⟨by decide, ?_, ?_⟩
  · exact (heic2jpg_C10_duration_type [] "out" 95 none
      ⟨fun _ => .ok, fun _ => .exits 0⟩ 0).2.1 (by decide)
  · exact (heic2jpg_C10_duration_type [⟨"d/a.heic", true⟩] "out" 95 none
      ⟨fun _ => .ok, fun _ => .exits 0⟩ 3).2.2 (by decide)

/-- `msgSource` recovers the source path from a failure message whose path
contains no colon. -/
theorem msgSource_append (p c : String) (hp : ∀ ch ∈ p.data, ch ≠ ':') :
    msgSource (p ++ ": " ++ c) = p := by
  apply String.ext
  show ((p ++ ": " ++ c).data.takeWhile (fun ch => ch ≠ ':')) = p.data
  have hcolon : (": " : String).data = [':', ' '] := rfl
  have hd : (p ++ ": " ++ c).data = p.data ++ (':' :: ' ' :: c.data) := by
    simp [String.data_append, hcolon]
  rw [hd, List.takeWhile_append_of_pos (fun a ha => decide_eq_true (hp a ha))]
  rw [List.takeWhile_cons_of_neg (by simp)]
  simp

/-- Among a list whose images under `f` are pairwise distinct, at most one
element maps to any given value. -/
theorem countP_src_le_one {α β : Type} [DecidableEq β] (f : α → β) (x : β) :
    ∀ l : List α, (l.map f).Nodup → l.countP (fun u => f u = x) ≤ 1 := by
  intro l
  induction l with
  | nil => intro _; simp
  | cons a l ih =>
    intro h
    rw [List.map_cons, List.nodup_cons] at h
    obtain ⟨ha, hl⟩ := h
    by_cases hax : f a = x
    · rw [List.countP_cons_of_pos (fun u => decide (f u = x)) l
        (decide_eq_true hax)]
      have hz : l.countP (fun u => decide (f u = x)) = 0 := by
        rw [List.countP_eq_zero]
        intro u hu hux
        have h2 : f u = x := by simpa using hux
        exact ha (by rw [hax, ← h2]; exact List.mem_map_of_mem f hu)
      omega
    · rw [List.countP_cons_of_neg (fun u => decide (f u = x)) l
        (by simpa using hax)]
      exact ih hl

/-- The failure messages of a run are those of the failing tasks, in task
order. -/
theorem failuresOf_map_tasks (o : Oracle) (l : List Task) :
    failuresOf (l.map (runOutcome o))
      = (failingTasks o l).map (fun u => (runOutcome o u).2) := by
  rw [failuresOf_eq_filter_map, List.filter_map, List.map_map]
  rfl

/-- A failing task with a colon-free source path, among tasks with
pairwise-distinct source paths, owns exactly one failure message. -/
theorem fail_msg_count (o : Oracle) (fs : List Task)
    (hsrc : (fs.map Task.src).Nodup)
    (hcolon : ∀ u ∈ fs, ∀ ch ∈ (Task.src u).data, ch ≠ ':')
    (t : Task) (ht : t ∈ fs) (hfail : (runOutcome o t).1 = false) :
    (failuresOf (fs.map (runOutcome o))).countP
      (fun m => msgSource m = Task.src t) = 1 := by
  rw [failuresOf_map_tasks, List.countP_map]
  have hcong : (failingTasks o fs).countP
      ((fun m => decide (msgSource m = Task.src t))
        ∘ (fun u => (runOutcome o u).2))
      = (failingTasks o fs).countP (fun u => decide (Task.src u = Task.src t)) := by
    apply List.countP_congr
    intro u hu
    obtain ⟨huf, hufail⟩ := List.mem_filter.mp hu
    have hufail2 : (runOutcome o u).1 = false := by simpa using hufail
    obtain ⟨c, hc⟩ := runOutcome_fail_msg o u hufail2
    simp only [Function.comp_apply, decide_eq_true_eq]
    rw [hc, msgSource_append _ _ (hcolon u huf)]
  rw [hcong]
  apply Nat.le_antisymm
  · exact le_trans
      (List.Sublist.countP_le _ (List.filter_sublist fs))
      (countP_src_le_one Task.src (Task.src t) fs hsrc)
  · have hpos : 0 < (failingTasks o fs).countP
        (fun u => decide (Task.src u = Task.src t)) := by
      rw [List.countP_pos_iff]
      exact ⟨t, List.mem_filter.mpr ⟨ht, by simp [hfail]⟩, by simp⟩
    omega

/-- Aggregation facts over one task list: success count, failure count and
per-failure message uniqueness. -/
theorem aggregate_facts (o : Oracle) (fs : List Task)
    (hsrc : (fs.map Task.src).Nodup)
    (hcolon : ∀ u ∈ fs, ∀ ch ∈ (Task.src u).data, ch ≠ ':') :
    successCountOf (fs.map (runOutcome o))
        = fs.length - (failingTasks o fs).length
    ∧ (failuresOf (fs.map (runOutcome o))).length = (failingTasks o fs).length
    ∧ successCountOf (fs.map (runOutcome o))
        + (failuresOf (fs.map (runOutcome o))).length = fs.length
    ∧ ∀ t ∈ fs, (runOutcome o t).1 = false →
        (failuresOf (fs.map (runOutcome o))).countP
          (fun m => msgSource m = Task.src t) = 1 := by
  have hlen2 : (failuresOf (fs.map (runOutcome o))).length
      = (failingTasks o fs).length := by
    rw [failuresOf_map_tasks, List.length_map]
  have hsum : successCountOf (fs.map (runOutcome o))
      + (failuresOf (fs.map (runOutcome o))).length = fs.length := by
    rw [successCount_add_failures, List.length_map]
  exact ⟨by omega, hlen2, hsum,
    fun t ht hf => fail_msg_count o fs hsrc hcolon t ht hf⟩

/-- C1: on every run over N submitted tasks of which K fail, the success
count is N - K, the failure list has length K, success count plus failure
count is N, and each failed task's source path heads exactly one failure
message (source paths being distinct and colon-free). -/
theorem heic2jpg_C1_error_accounting (entries : List Entry)
    (output_path : String) (quality : Nat) (ffmpeg_exe : Option String)
    (oracle : Oracle) (elapsed : ℚ)
    (hsrc : ((files_to_process entries output_path quality ffmpeg_exe).map
        Task.src).Nodup)
    (hcolon : ∀ t ∈ files_to_process entries output_path quality ffmpeg_exe,
      ∀ ch ∈ (Task.src t).data, ch ≠ ':') :
    (run_conversion entries output_path quality ffmpeg_exe oracle
          elapsed).ret.successCount
        = (run_conversion entries output_path quality ffmpeg_exe oracle
            elapsed).submitted.length
          - (failingTasks oracle
              (run_conversion entries output_path quality ffmpeg_exe oracle
                elapsed).submitted).length
    ∧ (run_conversion entries output_path quality ffmpeg_exe oracle
          elapsed).ret.errors.length
        = (failingTasks oracle
            (run_conversion entries output_path quality ffmpeg_exe oracle
              elapsed).submitted).length
    ∧ (run_conversion entries output_path quality ffmpeg_exe oracle
          elapsed).ret.successCount
        + (run_conversion entries output_path quality ffmpeg_exe oracle
            elapsed).ret.errors.length
      = (run_conversion entries output_path quality ffmpeg_exe oracle
          elapsed).submitted.length
    ∧ ∀ t ∈ (run_conversion entries output_path quality ffmpeg_exe oracle
        elapsed).submitted,
        (runOutcome oracle t).1 = false →
        (run_conversion entries output_path quality ffmpeg_exe oracle
            elapsed).ret.errors.countP
          (fun m => msgSource m = Task.src t) = 1 := by
  by_cases hfs : files_to_process entries output_path quality ffmpeg_exe = []
  · simp [run_conversion, hfs, failingTasks]
  · have hlen :
        (files_to_process entries output_path quality ffmpeg_exe).length ≠ 0 := by
      simpa [List.length_eq_zero] using hfs
    have hsub : (run_conversion entries output_path quality ffmpeg_exe oracle
        elapsed).submitted
        = files_to_process entries output_path quality ffmpeg_exe := by
      simp [run_conversion, hlen]
    have hsucc : (run_conversion entries output_path quality ffmpeg_exe oracle
        elapsed).ret.successCount
        = successCountOf ((files_to_process entries output_path quality
            ffmpeg_exe).map (runOutcome oracle)) := by
      simp [run_conversion, hlen]
    have herr : (run_conversion entries output_path quality ffmpeg_exe oracle
        elapsed).ret.errors
        = failuresOf ((files_to_process entries output_path quality
            ffmpeg_exe).map (runOutcome oracle)) := by
      simp [run_conversion, hlen]
    rw [hsub, hsucc, herr]
    exact aggregate_facts oracle _ hsrc hcolon

/-- Witness for C1: three tasks, one failing; counts are 2 and 1, and the
failing path "d/a.heic" heads exactly one failure message. -/
theorem heic2jpg_C1_error_accounting_witness :
    (((files_to_process
        [⟨"d/a.heic", true⟩, ⟨"d/b.heic", true⟩, ⟨"d/c.mov", true⟩]
        "out" 95 (some "ff")).map Task.src).Nodup)
    ∧ (run_conversion
        [⟨"d/a.heic", true⟩, ⟨"d/b.heic", true⟩, ⟨"d/c.mov", true⟩]
        "out" 95 (some "ff")
        ⟨fun s => if s = "d/a.heic" then .raises "boom" else .ok,
          fun _ => .exits 0⟩ 0).ret.successCount = 2
    ∧ (run_conversion
        [⟨"d/a.heic", true⟩, ⟨"d/b.heic", true⟩, ⟨"d/c.mov", true⟩]
        "out" 95 (some "ff")
        ⟨fun s => if s = "d/a.heic" then .raises "boom" else .ok,
          fun _ => .exits 0⟩ 0).ret.errors.length = 1
    ∧ (run_conversion
        [⟨"d/a.heic", true⟩, ⟨"d/b.heic", true⟩, ⟨"d/c.mov", true⟩]
        "out" 95 (some "ff")
        ⟨fun s => if s = "d/a.heic" then .raises "boom" else .ok,
          fun _ => .exits 0⟩ 0).ret.errors.countP
        (fun m => msgSource m = "d/a.heic") = 1 := by
  have h := heic2jpg_C1_error_accounting
    [⟨"d/a.heic", true⟩, ⟨"d/b.heic", true⟩, ⟨"d/c.mov", true⟩]
    "out" 95 (some "ff")
    ⟨fun s => if s = "d/a.heic" then .raises "boom" else .ok,
      fun _ => .exits 0⟩ 0 (by decide) (by decide)
  refine ⟨by decide, h.1.trans (by decide), h.2.1.trans (by decide), ?_⟩
  exact h.2.2.2 (Task.img "d/a.heic" "out" 95) (by decide) (by decide)

/-- Counterexample to C4 as stated: a two-task run in which both tasks
fail and the second finishes first.  The completion order [1, 0] is a
valid arrival order for the two submitted tasks, yet the returned failure
messages are not in that arrival order: they follow submission order. -/
theorem heic2jpg_C4_counterexample :
    ([1, 0].Perm (List.range
      (run_conversion [⟨"d/a.heic", true⟩, ⟨"d/b.heic", true⟩] "out" 95 none
        ⟨fun _ => .raises "x", fun _ => .exits 0⟩ 0).submitted.length))
    ∧ (run_conversion [⟨"d/a.heic", true⟩, ⟨"d/b.heic", true⟩] "out" 95 none
        ⟨fun _ => .raises "x", fun _ => .exits 0⟩ 0).ret.errors
      ≠ failuresOf (arrivalOrderResults
          ((run_conversion [⟨"d/a.heic", true⟩, ⟨"d/b.heic", true⟩] "out" 95
            none ⟨fun _ => .raises "x", fun _ => .exits 0⟩ 0).submitted.map
            (runOutcome ⟨fun _ => .raises "x", fun _ => .exits 0⟩))
          [1, 0])
    ∧ (run_conversion [⟨"d/a.heic", true⟩, ⟨"d/b.heic", true⟩] "out" 95 none
        ⟨fun _ => .raises "x", fun _ => .exits 0⟩ 0).ret.errors
      = ["d/a.heic: x", "d/b.heic: x"] := by
  refine ⟨by decide, by decide, by decide⟩

/-- C4 amended: the failure messages in the returned summary follow task
submission order (the result loop iterates the futures list in submission
order), not outcome completion order. -/
theorem heic2jpg_C4_submission_order (entries : List Entry)
    (output_path : String) (quality : Nat) (ffmpeg_exe : Option String)
    (oracle : Oracle) (elapsed : ℚ) :
    (run_conversion entries output_path quality ffmpeg_exe oracle
        elapsed).ret.errors
      = (failingTasks oracle
          (run_conversion entries output_path quality ffmpeg_exe oracle
            elapsed).submitted).map (fun u => (runOutcome oracle u).2) := by
  by_cases hfs : files_to_process entries output_path quality ffmpeg_exe = []
  · simp [run_conversion, hfs, failingTasks]
  · have hlen :
        (files_to_process entries output_path quality ffmpeg_exe).length ≠ 0 := by
      simpa [List.length_eq_zero] using hfs
    have hsub : (run_conversion entries output_path quality ffmpeg_exe oracle
        elapsed).submitted
        = files_to_process entries output_path quality ffmpeg_exe := by
      simp [run_conversion, hlen]
    have herr : (run_conversion entries output_path quality ffmpeg_exe oracle
        elapsed).ret.errors
        = failuresOf ((files_to_process entries output_path quality
            ffmpeg_exe).map (runOutcome oracle)) := by
      simp [run_conversion, hlen]
    rw [hsub, herr]
    exact failuresOf_map_tasks oracle _

/-- Witness for C2 at a concrete failing image task and a concrete nonzero
video exit. -/
theorem heic2jpg_C2_transcoders_total_witness :
    ((convert_image "d/a.heic" "out" 95 (.raises "boom")).outcome
        = (true, "d/a.heic")
      ∨ ∃ cause, (convert_image "d/a.heic" "out" 95 (.raises "boom")).outcome
          = (false, "d/a.heic" ++ ": " ++ cause))
    ∧ ((convert_video "d/a.heic" "out" none (.exits 2)).outcome
        = (true, "d/a.heic")
      ∨ ∃ cause, (convert_video "d/a.heic" "out" none (.exits 2)).outcome
          = (false, "d/a.heic" ++ ": " ++ cause)) :=
  heic2jpg_C2_transcoders_total "d/a.heic" "out" 95 (.raises "boom") none
    (.exits 2)

/-- Witness for C7 on a concrete missing directory. -/
theorem heic2jpg_C7_input_missing_witness :
    (cli_main "missing" false [⟨"d/a.heic", true⟩] none 95 none
        ⟨fun _ => .ok, fun _ => .exits 0⟩
      = { result := .inputMissing
            ("Error: Input directory " ++ "\x27" ++ "missing" ++ "\x27"
              ++ " does not exist."),
          scanned := false, mkdirCalled := false, submitted := [] })
    ∧ (cli_main "missing" false [⟨"d/a.heic", true⟩] none 95 none
        ⟨fun _ => .ok, fun _ => .exits 0⟩).result
      ≠ .noFiles ("No files found in " ++ "missing") :=
  ⟨(heic2jpg_C7_input_missing "missing" [⟨"d/a.heic", true⟩] none 95 none
      ⟨fun _ => .ok, fun _ => .exits 0⟩).1,
    (heic2jpg_C7_input_missing "missing" [⟨"d/a.heic", true⟩] none 95 none
      ⟨fun _ => .ok, fun _ => .exits 0⟩).2
      ("No files found in " ++ "missing")⟩

/-- Witness for the amended C4 on the two-task counterexample run. -/
theorem heic2jpg_C4_submission_order_witness :
    (run_conversion [⟨"d/a.heic", true⟩, ⟨"d/b.heic", true⟩] "out" 95 none
        ⟨fun _ => .raises "x", fun _ => .exits 0⟩ 0).ret.errors
      = (failingTasks ⟨fun _ => .raises "x", fun _ => .exits 0⟩
          (run_conversion [⟨"d/a.heic", true⟩, ⟨"d/b.heic", true⟩] "out" 95
            none ⟨fun _ => .raises "x", fun _ => .exits 0⟩ 0).submitted).map
          (fun u => (runOutcome ⟨fun _ => .raises "x", fun _ => .exits 0⟩ u).2) :=
  heic2jpg_C4_submission_order [⟨"d/a.heic", true⟩, ⟨"d/b.heic", true⟩]
    "out" 95 none ⟨fun _ => .raises "x", fun _ => .exits 0⟩ 0

end Heic2Jpg
